import Mathlib

/-
Verification of the p235 archetypal-pattern pipeline.

The sources embedded here are the three Python scripts of the repository:
  * generate_archetypal_patterns.py   (UIA templates -> archetypal patterns)
  * generate_apl_archetypal_variants.py (APL documents -> archetypal variants)
  * analyze_variations.py             (domain-section comparison report)

Text is modelled as `List Char`.  Python's `re` machinery is embedded only to
the extent the scripts use it:

  * `re.sub(r'\b' + re.escape(term) + r'\b', repl, text, flags=re.IGNORECASE)`
    and `re.sub(r'\b(alt1|alt2|...)\b', repl, text, flags=re.IGNORECASE)`:
    a left-to-right scan; at each position the alternatives are tried in
    order; an alternative matches when the text starts with it
    case-insensitively; `\b` is the word/non-word transition, checked against
    the character before the match and the character after it (every
    alternative in the source begins and ends with a word character, so the
    group-level `\b` anchors reduce to exactly these two checks).  After a
    match the scan resumes in the original text just past the matched span,
    so replacement text inserted earlier in the same pass is never rescanned,
    but a later rule's full pass does rescan it.

  * the two section regexes and the title regexes are embedded individually;
    the derivations of their Lean forms from Python's semantics are given at
    the definitions below.
-/

namespace P235

abbrev LC := List Char

/-- Shorthand: the character list of a string literal. -/
def S (s : String) : LC := s.data

/-- Python `\s` for the ASCII fragment: space, tab, newline, carriage
return, vertical tab, form feed.  (All corpus text relevant to the claims is
ASCII.) -/
def pyIsSpace (c : Char) : Bool :=
  c == ' ' || c == '\t' || c == '\n' || c == '\r' || c == '\x0b' || c == '\x0c'

/-- Python `\w` for the ASCII fragment: letters, digits, underscore. -/
def isWordChar (c : Char) : Bool :=
  c.isAlphanum || c == '_'

/-- Word-character test on an optional character; `none` (no character, i.e.
start or end of the text) counts as non-word. -/
def wopt : Option Char → Bool
  | none => false
  | some c => isWordChar c

/-- `\b`: a word boundary lies between two (optional) characters exactly when
their word-character statuses differ. -/
def boundary (a b : Option Char) : Bool :=
  wopt a != wopt b

/-- Python `str.strip()`: remove leading and trailing whitespace. -/
def pyStrip (cs : LC) : LC :=
  ((cs.dropWhile pyIsSpace).reverse.dropWhile pyIsSpace).reverse

/-- Python `str.lower()` (ASCII fragment). -/
def pyLower (cs : LC) : LC := cs.map Char.toLower

/-- `startsWith pat cs`: `cs` begins with `pat` (exact characters). -/
def startsWith : LC → LC → Bool
  | [], _ => true
  | _ :: _, [] => false
  | a :: as, c :: cs => a == c && startsWith as cs

/-- Case-insensitive literal match of the (lowercase) pattern `pat` against
the front of `cs`; on success returns the consumed original characters and
the remainder. -/
def splitCI : LC → LC → Option (LC × LC)
  | [], cs => some ([], cs)
  | _ :: _, [] => none
  | a :: as, c :: cs =>
    if c.toLower == a then (splitCI as cs).map (fun p => (c :: p.1, p.2)) else none

/-- One substitution rule: the ordered alternatives of the pattern's group
(each stored lowercase, as written in the source) and the literal
replacement. -/
structure Rule where
  alts : List LC
  repl : LC

/-- Try the alternatives in order at the current position.  `prev` is the
original-text character just before the position.  Returns the consumed
original span and the rest on the first alternative that matches with `\b`
holding on both sides. -/
def tryAlts (alts : List LC) (prev : Option Char) (cs : LC) : Option (LC × LC) :=
  match alts with
  | [] => none
  | [] :: more => tryAlts more prev cs
  | (a :: as) :: more =>
    match splitCI (a :: as) cs with
    | some (cons, rest) =>
      if boundary prev cs.head? && boundary cons.getLast? rest.head? then some (cons, rest)
      else tryAlts more prev cs
    | none => tryAlts more prev cs

/-- The left-to-right scan of `re.sub`, fuelled for structural recursion:
each step consumes at least one character, so fuel `cs.length` always
suffices (`ruleSub` supplies it).  On a match the replacement is emitted and
the scan resumes after the consumed span of the original text. -/
def subScanF (alts : List LC) (repl : LC) : Nat → Option Char → LC → LC
  | _, _, [] => []
  | 0, _, cs => cs
  | n + 1, prev, c :: rest =>
    match tryAlts alts prev (c :: rest) with
    | some (cons, after) => repl ++ subScanF alts repl n cons.getLast? after
    | none => c :: subScanF alts repl n (some c) rest

/-- `re.sub` for one rule over a whole text. -/
def ruleSub (r : Rule) (cs : LC) : LC :=
  subScanF r.alts r.repl cs.length none cs

/-- The engine: the source applies the rules one full pass each, in the
fixed insertion order of the Python dict. -/
def applyRules (rs : List Rule) (cs : LC) : LC :=
  rs.foldl (fun t r => ruleSub r t) cs

/-- `generic_terms` of generate_archetypal_patterns.py: defined in the
source but never used by it. -/
def generic_terms : List LC :=
  [S "organization", S "framework", S "structure", S "domain", S "environment",
   S "relationships", S "network", S "pattern", S "integrity", S "boundary",
   S "development", S "processes", S "emergence", S "balance", S "within",
   S "may", S "different", S "new", S "local", S "degree", S "form", S "order",
   S "spaces", S "areas", S "groups", S "people", S "whole", S "modes", S "awareness"]

/-- `replaceable_terms` of generate_archetypal_patterns.py, in dict insertion
order; each entry is a single-alternative rule `\b<term>\b -> placeholder`. -/
def replaceable_terms : List Rule :=
  [⟨[S "domains"], S "\x7b\x7bdomains\x7d\x7d"⟩,
   ⟨[S "frameworks"], S "\x7b\x7bframeworks\x7d\x7d"⟩,
   ⟨[S "elements"], S "\x7b\x7belements\x7d\x7d"⟩,
   ⟨[S "resources"], S "\x7b\x7bresources\x7d\x7d"⟩,
   ⟨[S "organization"], S "\x7b\x7borganization-type\x7d\x7d"⟩,
   ⟨[S "influence"], S "\x7b\x7binfluence-type\x7d\x7d"⟩,
   ⟨[S "positions"], S "\x7b\x7bpositions\x7d\x7d"⟩,
   ⟨[S "areas"], S "\x7b\x7bareas\x7d\x7d"⟩,
   ⟨[S "modes"], S "\x7b\x7bmodes\x7d\x7d"⟩,
   ⟨[S "patterns"], S "\x7b\x7bpatterns\x7d\x7d"⟩,
   ⟨[S "established patterns"], S "\x7b\x7bestablished-patterns\x7d\x7d"⟩,
   ⟨[S "major patterns"], S "\x7b\x7bmajor-patterns\x7d\x7d"⟩]

/-- `identify_domain_specific_terms` of generate_archetypal_patterns.py. -/
def identify_domain_specific_terms (template_text : LC) : LC :=
  applyRules replaceable_terms template_text

/-- `architectural_terms` of generate_apl_archetypal_variants.py, in dict
insertion order; each entry keeps its alternation order. -/
def architectural_terms : List Rule :=
  [⟨[S "region", S "regions"], S "\x7b\x7bregions\x7d\x7d"⟩,
   ⟨[S "town", S "towns", S "city", S "cities", S "village", S "villages"],
    S "\x7b\x7bsettlements\x7d\x7d"⟩,
   ⟨[S "building", S "buildings", S "structure", S "structures", S "house", S "houses"],
    S "\x7b\x7bstructures\x7d\x7d"⟩,
   ⟨[S "street", S "streets", S "road", S "roads", S "path", S "paths"],
    S "\x7b\x7bpathways\x7d\x7d"⟩,
   ⟨[S "space", S "spaces", S "room", S "rooms", S "area", S "areas"],
    S "\x7b\x7bspaces\x7d\x7d"⟩,
   ⟨[S "people", S "person", S "inhabitants", S "residents", S "users"],
    S "\x7b\x7bagents\x7d\x7d"⟩,
   ⟨[S "activities", S "activity", S "functions", S "function"],
    S "\x7b\x7bprocesses\x7d\x7d"⟩,
   ⟨[S "neighborhood", S "neighborhoods", S "community", S "communities"],
    S "\x7b\x7blocalities\x7d\x7d"⟩,
   ⟨[S "construction", S "building process", S "development"],
    S "\x7b\x7bcreation\x7d\x7d"⟩,
   ⟨[S "parking", S "transportation", S "traffic"],
    S "\x7b\x7bmovement\x7d\x7d"⟩]

/-- `identify_architectural_terms` of generate_apl_archetypal_variants.py. -/
def identify_architectural_terms (text : LC) : LC :=
  applyRules architectural_terms text

/-! ### Title extraction

generate_archetypal_patterns.py line 60:
`re.search(r'^# (\d+) - (.+)$', content, re.MULTILINE)`.
With MULTILINE, `^`/`$` anchor to line starts/ends, so the leftmost match is
the first whole line of the form `# <digits> - <rest>` (with `<digits>` and
`<rest>` nonempty; `.` does not cross the newline).  The greedy `\d+` is
unambiguous: it is the maximal digit run, since the following literal is a
space, which is not a digit. -/

/-- Split a text into its `\n`-separated lines. -/
def splitLines : LC → List LC
  | [] => [[]]
  | c :: rest =>
    if c == '\n' then [] :: splitLines rest
    else
      match splitLines rest with
      | [] => [[c]]
      | l :: ls => (c :: l) :: ls

/-- Match `^# (\d+) - (.+)$` against one line; on success return the two
captured groups. -/
def parseTitleLine : LC → Option (LC × LC)
  | '#' :: ' ' :: r =>
    let ds := r.takeWhile Char.isDigit
    if ds.isEmpty then none
    else
      let r2 := r.drop ds.length
      if startsWith (S " - ") r2 then
        let nm := r2.drop 3
        if nm.isEmpty then none else some (ds, nm)
      else none
  | _ => none

/-- The title search of `extract_template_content`: the first matching
line. -/
def findTitle (content : LC) : Option (LC × LC) :=
  (splitLines content).findSome? parseTitleLine

/-! ### Template-section extraction (generate_archetypal_patterns.py)

Line 68: `re.search(r'## Template\s*\n\n(.+?)(?=\n\n##|\n\n$)', content,
re.DOTALL)`.  Semantics, derived clause by clause:

* The literal `## Template` makes the search try each occurrence of that
  substring left to right (`tcScan`).
* `\s*\n\n` is a greedy whitespace run that backtracks until the final two
  characters it leaves are a literal `\n\n`; the capture starts after them.
  Greediness means the largest such split inside the maximal whitespace
  prefix is tried first (`tcTryK`, counting the split point down).
* `(.+?)` is lazy and, with DOTALL, consumes any character: the capture is
  the shortest nonempty prefix whose following suffix satisfies the
  lookahead (`tcBody`).
* The lookahead `(?=\n\n##|\n\n$)` (no MULTILINE, so `$` is end of string or
  just before one final newline) holds exactly when the suffix starts with
  `\n\n##`, or is exactly `\n\n`, or is exactly `\n\n\n` (`tcLook`). -/

/-- The lookahead `(?=\n\n##|\n\n$)` of the Template regex. -/
def tcLook (s : LC) : Bool :=
  startsWith (S "\n\n##") s || s == S "\n\n" || s == S "\n\n\n"

/-- The lazy `(.+?)` walk: grow the (reversed) accumulator one character at
a time, stopping at the first point where it is nonempty and the lookahead
holds. -/
def tcBody : LC → LC → Option LC
  | acc, [] => if !acc.isEmpty && tcLook [] then some acc.reverse else none
  | acc, c :: rs =>
    if !acc.isEmpty && tcLook (c :: rs) then some acc.reverse
    else tcBody (c :: acc) rs

/-- Length of the maximal whitespace prefix (the furthest `\s*` can reach). -/
def wsPrefixLen (t : LC) : Nat := (t.takeWhile pyIsSpace).length

/-- Backtracking of `\s*\n\n`: try split points `k` from the greedy maximum
down to `0`; point `k` is usable when the two characters there are `\n\n`
(everything before `k` is whitespace because `k` never exceeds the
whitespace prefix). -/
def tcTryK (t : LC) : Nat → Option LC
  | 0 => if startsWith (S "\n\n") t then tcBody [] (t.drop 2) else none
  | k + 1 =>
    match (if startsWith (S "\n\n") (t.drop (k + 1)) then tcBody [] (t.drop (k + 3)) else none) with
    | some b => some b
    | none => tcTryK t k

/-- Continuation of the Template regex after the literal `## Template`. -/
def tcAfterHeading (t : LC) : Option LC :=
  tcTryK t (wsPrefixLen t)

/-- Leftmost-occurrence search for the whole Template regex. -/
def tcScan : LC → Option LC
  | [] => none
  | c :: rest =>
    if startsWith (S "## Template") (c :: rest) then
      match tcAfterHeading ((c :: rest).drop 11) with
      | some b => some b
      | none => tcScan rest
    else tcScan rest

/-- `extract_template_content` of generate_archetypal_patterns.py.  The
file argument is `none` when opening or reading the file raises; the
`try/except` of the source catches that and returns the all-`None` triple.
The Python triple of possibly-`None` strings is kept as a triple of
`Option`s. -/
def extract_template_content (file : Option LC) : Option LC × Option LC × Option LC :=
  match file with
  | none => (none, none, none)
  | some content =>
    match findTitle content with
    | none => (none, none, none)
    | some (pattern_id, pattern_name) =>
      match tcScan content with
      | none => (none, none, none)
      | some body => (some pattern_id, some pattern_name, some (pyStrip body))

/-! ### Domain-section extraction (analyze_variations.py)

Line 17 and friends: `r'## <Name>\s*\n\n(.*?)(?=\n## |$)'` searched with
`re.DOTALL | re.MULTILINE`.  The decisive difference from the Template
regex: MULTILINE makes the `$` of the lookahead match before EVERY newline.
At a candidate stop position the lookahead `(?=\n## |$)` therefore holds
exactly when the suffix is empty or starts with `\n` (the `\n## `
alternative only fires when the next character is `\n`, which the `$`
alternative already covers).  Hence the lazy `(.*?)` (empty allowed) always
stops at the first newline or at end of text: the captured body is
`takeWhile (not newline)` of what follows the `\s*\n\n` part, and the match
as a whole succeeds at any occurrence of the heading followed by a
whitespace run containing `\n\n`. -/

/-- Backtracking of `\s*\n\n` for the analyze_variations regex; on success
the capture is everything up to the first newline. -/
def adsTryK (t : LC) : Nat → Option LC
  | 0 =>
    if startsWith (S "\n\n") t then some ((t.drop 2).takeWhile (fun c => !(c == '\n')))
    else none
  | k + 1 =>
    if startsWith (S "\n\n") (t.drop (k + 1)) then
      some ((t.drop (k + 3)).takeWhile (fun c => !(c == '\n')))
    else adsTryK t k

/-- Leftmost-occurrence search for `## <name>\s*\n\n(.*?)(?=\n## |$)`. -/
def adsScan (name : LC) : LC → Option LC
  | [] => none
  | c :: rest =>
    if startsWith (S "## " ++ name) (c :: rest) then
      match adsTryK ((c :: rest).drop (name.length + 3)) (wsPrefixLen ((c :: rest).drop (name.length + 3))) with
      | some b => some b
      | none => adsScan name rest
    else adsScan name rest

/-- One entry of `extract_domain_sections`: the stripped capture, or the
empty string when the regex does not match. -/
def extract_domain_section (name content : LC) : LC :=
  match adsScan name content with
  | some b => pyStrip b
  | none => []

/-- `extract_domain_sections` of analyze_variations.py: the five fixed
section names, each extracted with the same regex shape. -/
def extract_domain_sections (content : LC) : List (LC × LC) :=
  [S "Template", S "Physical", S "Social", S "Conceptual", S "Psychic"].map
    (fun n => (n, extract_domain_section n content))

/-! ### Title extraction of analyze_variations.py

Line 57: `re.search(r'# \d+ - (.+)', content)` — no anchors, no MULTILINE:
the fragment may match anywhere, even mid-line; only group 1 (the name
part) is kept; the id is dropped.  Line 58 falls back to the file name. -/

/-- Match `# \d+ - (.+)` at the current position. -/
def avMatchAt : LC → Option LC
  | '#' :: ' ' :: r =>
    let ds := r.takeWhile Char.isDigit
    if ds.isEmpty then none
    else
      let r2 := r.drop ds.length
      if startsWith (S " - ") r2 then
        let nm := (r2.drop 3).takeWhile (fun c => !(c == '\n'))
        if nm.isEmpty then none else some nm
      else none
  | _ => none

/-- Leftmost-position search for the analyze_variations title fragment. -/
def avSearchTitle : LC → Option LC
  | [] => none
  | c :: rest =>
    match avMatchAt (c :: rest) with
    | some nm => some nm
    | none => avSearchTitle rest

/-- `title = title_match.group(1) if title_match else pattern_file`
(analyze_variations.py lines 57-58). -/
def analyzeTitle (pattern_file content : LC) : LC :=
  match avSearchTitle content with
  | some nm => nm
  | none => pattern_file

/-! ### Output assembly (generate_archetypal_patterns.py lines 115-150)

The f-string of `generate_archetypal_pattern`, transcribed literally.  The
ten bullet rows of the "Domain Placeholders" section are a fixed block,
emitted for every document; they are named individually so that statements
about single rows can be made. -/

def gapRowDomains : LC :=
  S "- `\x7b\x7bdomains\x7d\x7d` → Physical: regions/areas | Social: functional domains/communities | Conceptual: knowledge domains | Psychic: modes of awareness\n"

def gapRowFrameworks : LC :=
  S "- `\x7b\x7bframeworks\x7d\x7d` → Physical: cities/infrastructure | Social: institutions/systems | Conceptual: paradigms/theories | Psychic: mental structures\n"

def gapRowElements : LC :=
  S "- `\x7b\x7belements\x7d\x7d` → Physical: materials/spaces | Social: members/participants | Conceptual: concepts/ideas | Psychic: perceptions/insights\n"

def gapRowOrganizationType : LC :=
  S "- `\x7b\x7borganization-type\x7d\x7d` → Physical: building/development | Social: institution/community | Conceptual: framework/theory | Psychic: structured awareness\n"

def gapRowResources : LC :=
  S "- `\x7b\x7bresources\x7d\x7d` → Physical: land/agriculture | Social: social resources | Conceptual: creative resources | Psychic: psychic resources\n"

def gapRowInfluenceType : LC :=
  S "- `\x7b\x7binfluence-type\x7d\x7d` → Physical: influence | Social: influence | Conceptual: insight | Psychic: influence\n"

def gapRowAreas : LC :=
  S "- `\x7b\x7bareas\x7d\x7d` → Physical: land/regions | Social: functional areas | Conceptual: domains | Psychic: modes of awareness\n"

def gapRowPositions : LC :=
  S "- `\x7b\x7bpositions\x7d\x7d` → Physical: central locations | Social: central organizations | Conceptual: central frameworks | Psychic: ordered modes\n"

def gapRowPatterns : LC :=
  S "- `\x7b\x7bpatterns\x7d\x7d` → Physical: urban environments | Social: organizational patterns | Conceptual: knowledge patterns | Psychic: awareness patterns\n"

def gapRowModes : LC :=
  S "- `\x7b\x7bmodes\x7d\x7d` → Physical: environments | Social: modes of organization | Conceptual: modes of organization | Psychic: modes of awareness\n"

/-- The fixed "Domain Placeholders" block of every generated pattern. -/
def domainPlaceholdersBlock : LC :=
  S "## Domain Placeholders\n\nThis archetypal pattern uses the following domain-specific placeholders:\n\n" ++
    gapRowDomains ++ gapRowFrameworks ++ gapRowElements ++ gapRowOrganizationType ++
    gapRowResources ++ gapRowInfluenceType ++ gapRowAreas ++ gapRowPositions ++
    gapRowPatterns ++ gapRowModes

/-- `generate_archetypal_pattern` of generate_archetypal_patterns.py. -/
def generate_archetypal_pattern (pattern_id pattern_name template_content : LC) : LC :=
  S "# " ++ pattern_id ++ S " - " ++ pattern_name ++ S " (Archetypal)\n\n## Archetypal Pattern\n\n" ++
    identify_domain_specific_terms template_content ++ S "\n\n" ++
    domainPlaceholdersBlock ++
    (S "\n## Original Template\n\n" ++ template_content ++
      S "\n\n---\n*Generated from UIA Pattern " ++ pattern_id ++ S "*\n")

/-! ### Output assembly (generate_apl_archetypal_variants.py lines 88-132) -/

/-- The fixed "Domain Transformations" block of every generated variant
(transcribed literally; the `settlements` row ends with two spaces, as in
the source). -/
def domainTransformationsBlock : LC :=
  S "## Domain Transformations\n\nThis archetypal variant uses the following domain-specific placeholders:\n\n" ++
  S "- `\x7b\x7bregions\x7d\x7d` → Physical: regions/territories | Social: communities/networks | Conceptual: domains/fields | Psychic: states/realms\n" ++
  S "- `\x7b\x7bsettlements\x7d\x7d` → Physical: towns/cities | Social: organizations/institutions | Conceptual: systems/frameworks | Psychic: patterns/structures  \n" ++
  S "- `\x7b\x7bstructures\x7d\x7d` → Physical: buildings/facilities | Social: institutions/entities | Conceptual: concepts/models | Psychic: patterns/forms\n" ++
  S "- `\x7b\x7bpathways\x7d\x7d` → Physical: streets/roads | Social: connections/networks | Conceptual: links/associations | Psychic: flows/channels\n" ++
  S "- `\x7b\x7bspaces\x7d\x7d` → Physical: spaces/places | Social: environments/contexts | Conceptual: realms/domains | Psychic: states/dimensions\n" ++
  S "- `\x7b\x7bagents\x7d\x7d` → Physical: people/inhabitants | Social: members/participants | Conceptual: elements/components | Psychic: aspects/facets\n" ++
  S "- `\x7b\x7bprocesses\x7d\x7d` → Physical: activities/functions | Social: interactions/communications | Conceptual: operations/processes | Psychic: experiences/activities\n" ++
  S "- `\x7b\x7blocalities\x7d\x7d` → Physical: neighborhoods/communities | Social: groups/collectives | Conceptual: clusters/groupings | Psychic: formations/configurations\n" ++
  S "- `\x7b\x7bcreation\x7d\x7d` → Physical: construction/development | Social: formation/establishment | Conceptual: development/creation | Psychic: emergence/formation\n" ++
  S "- `\x7b\x7bmovement\x7d\x7d` → Physical: transportation/traffic | Social: communication/flow | Conceptual: information flow/exchange | Psychic: energy flow/circulation\n"

/-- The fixed "Usage Instructions" block of every generated variant. -/
def usageInstructionsBlock : LC :=
  S "## Usage Instructions\n\nTo use this archetypal variant:\n\n1. **Select your domain**: Physical, Social, Conceptual, or Psychic\n2. **Replace placeholders**: Substitute each `\x7b\x7bplaceholder\x7d\x7d` with appropriate domain-specific terms\n3. **Adapt context**: Modify surrounding text as needed to maintain coherence in your chosen domain\n\n"

/-- `generate_archetypal_variant` of generate_apl_archetypal_variants.py
(the `file_type` parameter of the source is never used). -/
def generate_archetypal_variant (title content : LC) : LC :=
  S "# " ++ title ++ S " (Archetypal Variant)\n\n## Archetypal Pattern\n\n" ++
    identify_architectural_terms content ++ S "\n\n" ++
    domainTransformationsBlock ++ S "\n" ++ usageInstructionsBlock ++
    S "## Original Content\n\n" ++
    (content ++ S "\n\n---\n*Generated as archetypal variant from APL organizational document*\n")

/-! ### The per-document loop of generate_archetypal_patterns.py
(lines 166-181) -/

/-- What `main` does with one document. -/
inductive DocOutcome
  | generated : LC → DocOutcome
  | skippedNoTemplate : DocOutcome
  | dropped : DocOutcome

/-- Python truthiness of the triple's components: `None` and the empty
string are falsy. -/
def truthy : Option LC → Bool
  | none => false
  | some s => !s.isEmpty

/-- The branch structure of the loop body: `if pattern_id and pattern_name
and template_content: ... elif pattern_id and pattern_name: ...` — a
document hitting neither branch is passed over silently. -/
def processDoc (file : Option LC) : DocOutcome :=
  match extract_template_content file with
  | (pid, nm, tmpl) =>
    if truthy pid && truthy nm && truthy tmpl then
      DocOutcome.generated (generate_archetypal_pattern (pid.getD []) (nm.getD []) (tmpl.getD []))
    else if truthy pid && truthy nm then DocOutcome.skippedNoTemplate
    else DocOutcome.dropped

/-- The two counters of `main`: `(generated_count, no_template_count)`. -/
def runMain (docs : List (Option LC)) : Nat × Nat :=
  docs.foldl
    (fun acc file =>
      match processDoc file with
      | DocOutcome.generated _ => (acc.1 + 1, acc.2)
      | DocOutcome.skippedNoTemplate => (acc.1, acc.2 + 1)
      | DocOutcome.dropped => acc)
    (0, 0)

/-! ### The per-document loop of generate_apl_archetypal_variants.py
(lines 177-201) -/

/-- The placeholder content synthesized when the source file does not exist
(line 187). -/
def aplPlaceholderContent (title : LC) : LC :=
  S "# " ++ title ++ S "\n\n" ++
    (S "This document represents " ++ pyLower title ++ S " organizational principles.")

/-- The default content substituted for empty or `"list"` content
(line 191). -/
def aplDefaultContent (title : LC) : LC :=
  S "# " ++ title ++ S "\n\n" ++
    (S "This document represents " ++ pyLower title ++ S " organizational principles and patterns.")

/-- One iteration of `create_apl_archetypal_variants`' document loop: the
source is `none` when the file does not exist; the produced variant is
always written to the output path. -/
def aplProcessDoc (title : LC) (source : Option LC) : LC :=
  let content :=
    match source with
    | some c => pyStrip c
    | none => aplPlaceholderContent title
  let content2 := if content.isEmpty || content == S "list" then aplDefaultContent title else content
  generate_archetypal_variant title content2

/-! ## Helper lemmas -/

theorem infixTrans {l₁ l₂ l₃ : LC} (h1 : l₁ <:+: l₂) (h2 : l₂ <:+: l₃) : l₁ <:+: l₃ :=
  h1.trans h2

/-- The fixed placeholder block sits inside every generated pattern. -/
theorem block_infix_gap (pid nm tmpl : LC) :
    domainPlaceholdersBlock <:+: generate_archetypal_pattern pid nm tmpl :=
  ⟨S "# " ++ pid ++ S " - " ++ nm ++ S " (Archetypal)\n\n## Archetypal Pattern\n\n" ++
      identify_domain_specific_terms tmpl ++ S "\n\n",
   S "\n## Original Template\n\n" ++ tmpl ++ S "\n\n---\n*Generated from UIA Pattern " ++
      pid ++ S "*\n",
   by simp [generate_archetypal_pattern, List.append_assoc]⟩

/-- The fixed transformation block sits inside every generated variant. -/
theorem block_infix_gav (title content : LC) :
    domainTransformationsBlock <:+: generate_archetypal_variant title content :=
  ⟨S "# " ++ title ++ S " (Archetypal Variant)\n\n## Archetypal Pattern\n\n" ++
      identify_architectural_terms content ++ S "\n\n",
   S "\n" ++ usageInstructionsBlock ++ S "## Original Content\n\n" ++
      (content ++ S "\n\n---\n*Generated as archetypal variant from APL organizational document*\n"),
   by simp [generate_archetypal_variant, List.append_assoc]⟩

/-- The unmodified input content sits inside every generated variant. -/
theorem content_infix_gav (title content : LC) :
    content <:+: generate_archetypal_variant title content :=
  ⟨S "# " ++ title ++ S " (Archetypal Variant)\n\n## Archetypal Pattern\n\n" ++
      identify_architectural_terms content ++ S "\n\n" ++ domainTransformationsBlock ++
      S "\n" ++ usageInstructionsBlock ++ S "## Original Content\n\n",
   S "\n\n---\n*Generated as archetypal variant from APL organizational document*\n",
   by simp [generate_archetypal_variant, List.append_assoc]⟩

/-- `takeWhile` over an append stops exactly at the junction when every
left element satisfies the predicate and the first right element (if any)
does not. -/
theorem takeWhile_append_eq (p : Char → Bool) (l r : LC) (hl : ∀ c ∈ l, p c = true)
    (hr : ∀ c, r.head? = some c → p c = false) : (l ++ r).takeWhile p = l := by
  induction l with
  | nil =>
    cases r with
    | nil => rfl
    | cons c rs => simp [List.takeWhile_cons, hr c rfl]
  | cons a l ih =>
    have ha : p a = true := hl a (by simp)
    simp [List.takeWhile_cons, ha, ih (fun c hc => hl c (by simp [hc]))]

/-- Every pattern is a prefix of itself followed by anything. -/
theorem startsWith_append (p t : LC) : startsWith p (p ++ t) = true := by
  induction p with
  | nil => rfl
  | cons a as ih => simp [startsWith, ih]

/-- Splitting off one full newline-free line. -/
theorem splitLines_append (l rest : LC) (hl : ∀ c ∈ l, (c == '\n') = false) :
    splitLines (l ++ '\n' :: rest) = l :: splitLines rest := by
  induction l with
  | nil => simp [splitLines]
  | cons a l ih =>
    have ha : (a == '\n') = false := hl a (by simp)
    simp [splitLines, ha, ih (fun c hc => hl c (by simp [hc]))]

/-- A successful case-insensitive split: the text is the consumed span
followed by the rest, and the consumed span lowercases to the pattern. -/
theorem splitCI_eq : ∀ (pat cs cons rest : LC), splitCI pat cs = some (cons, rest) →
    cs = cons ++ rest ∧ cons.map Char.toLower = pat := by
  intro pat
  induction pat with
  | nil =>
    intro cs cons rest h
    simp only [splitCI, Option.some.injEq, Prod.mk.injEq] at h
    obtain ⟨h1, h2⟩ := h
    subst h1; subst h2; exact ⟨rfl, rfl⟩
  | cons a as ih =>
    intro cs cons rest h
    cases cs with
    | nil => simp [splitCI] at h
    | cons c cs' =>
      simp only [splitCI] at h
      by_cases hc : (c.toLower == a) = true
      · rw [if_pos hc] at h
        rw [Option.map_eq_some'] at h
        obtain ⟨p, hp, hpe⟩ := h
        obtain ⟨p1, p2⟩ := p
        simp only [Prod.mk.injEq] at hpe
        obtain ⟨hpe1, hpe2⟩ := hpe
        obtain ⟨he, hm⟩ := ih cs' p1 p2 hp
        subst hpe1; subst hpe2
        constructor
        · simp [he]
        · simp only [List.map_cons, hm]
          rw [beq_iff_eq.mp hc]
      · rw [if_neg hc] at h
        exact absurd h (by simp)

/-- The last element of a nonempty list, through `getLast?`, is a member. -/
theorem getLast?_mem : ∀ {l : LC}, l ≠ [] → ∃ d, l.getLast? = some d ∧ d ∈ l := by
  intro l
  induction l with
  | nil => intro h; exact absurd rfl h
  | cons a t ih =>
    intro _
    cases t with
    | nil => exact ⟨a, rfl, by simp⟩
    | cons b t' =>
      obtain ⟨d, hd, hm⟩ := ih (by simp)
      exact ⟨d, by rw [List.getLast?_cons_cons]; exact hd, by simp [hm]⟩

/-- When the character before the position is a word character, no rule
alternative can match there: the leading `\b` fails (all text characters in
scope are word characters). -/
theorem tryAlts_none_of_prevWord (prev : Option Char) (cs : LC) (hprev : wopt prev = true)
    (hcs : ∀ c ∈ cs, isWordChar c = true) :
    ∀ alts, tryAlts alts prev cs = none := by
  intro alts
  induction alts with
  | nil => rfl
  | cons alt more ih =>
    cases alt with
    | nil => simpa [tryAlts] using ih
    | cons a as =>
      simp only [tryAlts]
      cases hs : splitCI (a :: as) cs with
      | none => exact ih
      | some p =>
        obtain ⟨c', r'⟩ := p
        obtain ⟨he, hm⟩ := splitCI_eq _ _ _ _ hs
        have hc' : c' ≠ [] := by
          intro hnil; rw [hnil] at hm; exact absurd hm.symm (by simp)
        obtain ⟨d, ds, rfl⟩ : ∃ d ds, c' = d :: ds := by
          cases c' with
          | nil => exact absurd rfl hc'
          | cons d ds => exact ⟨d, ds, rfl⟩
        have hhead : cs.head? = some d := by rw [he]; rfl
        have hd : isWordChar d = true := hcs d (by rw [he]; simp)
        have hwd : wopt (some d) = true := by simp [wopt, hd]
        have hb : boundary prev cs.head? = false := by
          simp [boundary, hhead, hprev, hwd]
        simp [hb, ih]

/-- At a position where every character of the text is a word character and
no alternative equals the lowercased whole text, no alternative matches:
a proper-prefix match is rejected by the trailing `\b` and a full match is
excluded by hypothesis. -/
theorem tryAlts_none_of_ne (prev : Option Char) (cs : LC)
    (hcs : ∀ c ∈ cs, isWordChar c = true) :
    ∀ alts, (∀ alt ∈ alts, alt ≠ cs.map Char.toLower) → tryAlts alts prev cs = none := by
  intro alts
  induction alts with
  | nil => intro _; rfl
  | cons alt more ih =>
    intro halt
    have hmore := ih (fun a ha => halt a (by simp [ha]))
    cases alt with
    | nil => simpa [tryAlts] using hmore
    | cons a as =>
      simp only [tryAlts]
      cases hs : splitCI (a :: as) cs with
      | none => exact hmore
      | some p =>
        obtain ⟨c', r'⟩ := p
        obtain ⟨he, hm⟩ := splitCI_eq _ _ _ _ hs
        cases hr : r' with
        | nil =>
          exfalso
          apply halt (a :: as) (by simp)
          rw [← hm, he, hr, List.append_nil]
        | cons r0 rs =>
          have hc' : c' ≠ [] := by
            intro hnil; rw [hnil] at hm; exact absurd hm.symm (by simp)
          obtain ⟨d, hd, hdm⟩ := getLast?_mem hc'
          have hdw : isWordChar d = true := hcs d (by rw [he]; exact List.mem_append_left _ hdm)
          have hr0 : isWordChar r0 = true := hcs r0 (by rw [he, hr]; simp)
          have hwd : wopt (some d) = true := by simp [wopt, hdw]
          have hwr : wopt (some r0) = true := by simp [wopt, hr0]
          have hb : boundary c'.getLast? (some r0) = false := by
            simp [boundary, hd, hwd, hwr]
          simp [hr, hb, hmore]

/-- Once inside a run of word characters, the scan copies the text
unchanged (the leading `\b` can never hold again). -/
theorem subScanF_word_id (alts : List LC) (repl : LC) :
    ∀ (n : Nat) (prev : Option Char) (cs : LC), wopt prev = true →
      (∀ c ∈ cs, isWordChar c = true) → cs.length ≤ n →
      subScanF alts repl n prev cs = cs := by
  intro n
  induction n with
  | zero =>
    intro prev cs _ _ hlen
    have : cs = [] := List.eq_nil_of_length_eq_zero (Nat.le_zero.mp hlen)
    subst this; rfl
  | succ n ih =>
    intro prev cs hprev hcs hlen
    cases cs with
    | nil => rfl
    | cons c rest =>
      have hc : isWordChar c = true := hcs c (by simp)
      simp only [subScanF, tryAlts_none_of_prevWord prev (c :: rest) hprev hcs]
      rw [ih (some c) rest (by simpa [wopt]) (fun x hx => hcs x (by simp [hx]))
        (by simpa using hlen)]

/-- One full `re.sub` pass leaves a single word unchanged when no
alternative of the rule equals its lowercasing. -/
theorem ruleSub_word_id (r : Rule) (w : LC) (hw : ∀ c ∈ w, isWordChar c = true)
    (halts : ∀ alt ∈ r.alts, alt ≠ w.map Char.toLower) : ruleSub r w = w := by
  cases w with
  | nil => rfl
  | cons c rest =>
    show subScanF r.alts r.repl (c :: rest).length none (c :: rest) = c :: rest
    have hc : isWordChar c = true := hw c (by simp)
    simp only [List.length_cons, subScanF, tryAlts_none_of_ne none (c :: rest) hw r.alts halts]
    rw [subScanF_word_id r.alts r.repl rest.length (some c) rest (by simpa [wopt])
      (fun x hx => hw x (by simp [hx])) (Nat.le_refl _)]

/-- Restatement of the `adsTryK` successor equation, for rewriting at
numeric literals. -/
theorem adsTryK_succ (t : LC) (k : Nat) :
    adsTryK t (k + 1) =
      if startsWith (S "\n\n") (t.drop (k + 1)) then
        some ((t.drop (k + 3)).takeWhile (fun c => !(c == '\n')))
      else adsTryK t k := rfl

/-- Restatement of the `adsTryK` base equation. -/
theorem adsTryK_zero (t : LC) :
    adsTryK t 0 =
      if startsWith (S "\n\n") t then some ((t.drop 2).takeWhile (fun c => !(c == '\n')))
      else none := rfl

/-- After `## <name>` followed by exactly one blank line and a body line
whose first character is not whitespace, the analyze_variations regex
captures precisely that first line: the greedy `\s*` has nothing beyond the
two newlines, and the capture stops at the next newline. -/
theorem ads_after_eval (c : Char) (L1 tail : LC) (hc : pyIsSpace c = false)
    (hnl : ∀ x ∈ (c :: L1), (x == '\n') = false) :
    adsTryK ('\n' :: '\n' :: ((c :: L1) ++ ('\n' :: tail)))
        (wsPrefixLen ('\n' :: '\n' :: ((c :: L1) ++ ('\n' :: tail)))) = some (c :: L1) := by
  have hcn : ('\n' == c) = false := by
    cases hx : ('\n' == c) with
    | false => rfl
    | true =>
      have h1 : (c == '\n') = false := hnl c (by simp)
      rw [← beq_iff_eq.mp hx] at h1
      simp at h1
  have hws : wsPrefixLen ('\n' :: '\n' :: ((c :: L1) ++ ('\n' :: tail))) = 2 := by
    show (List.takeWhile pyIsSpace ('\n' :: '\n' :: (c :: (L1 ++ '\n' :: tail)))).length = 2
    simp [List.takeWhile_cons, show pyIsSpace '\n' = true from rfl, hc]
  rw [hws]
  rw [show (2 : Nat) = 1 + 1 from rfl, adsTryK_succ]
  have hsw2 : startsWith (S "\n\n")
      (('\n' :: '\n' :: ((c :: L1) ++ ('\n' :: tail))).drop (1 + 1)) = false := by
    show (('\n' == c) && startsWith (S "\n") (L1 ++ '\n' :: tail)) = false
    rw [hcn, Bool.false_and]
  rw [hsw2]
  simp only [Bool.false_eq_true, if_false]
  rw [show (1 : Nat) = 0 + 1 from rfl, adsTryK_succ]
  have hsw1 : startsWith (S "\n\n")
      (('\n' :: '\n' :: ((c :: L1) ++ ('\n' :: tail))).drop (0 + 1)) = false := by
    show (('\n' == '\n') && (('\n' == c) && startsWith (S "") (L1 ++ '\n' :: tail))) = false
    rw [hcn]
    simp
  rw [hsw1]
  simp only [Bool.false_eq_true, if_false]
  rw [adsTryK_zero]
  have hsw0 : startsWith (S "\n\n") ('\n' :: '\n' :: ((c :: L1) ++ ('\n' :: tail))) = true := rfl
  rw [hsw0]
  simp only [if_true]
  have hbody : (('\n' :: '\n' :: ((c :: L1) ++ ('\n' :: tail))).drop 2).takeWhile
      (fun c => !(c == '\n')) = c :: L1 := by
    show ((c :: L1) ++ ('\n' :: tail)).takeWhile (fun c => !(c == '\n')) = c :: L1
    refine takeWhile_append_eq _ _ _ (fun x hx => ?_) (fun x hx => ?_)
    · rw [hnl x hx]; rfl
    · injection hx with hx'; rw [← hx']; rfl
  rw [hbody]

/-- The analyze_variations regex matches at an occurrence of its heading
when the continuation succeeds there. -/
theorem adsScan_here (name t b : LC) (hb : adsTryK t (wsPrefixLen t) = some b) :
    adsScan name ((S "## " ++ name) ++ t) = some b := by
  show adsScan name ('#' :: '#' :: ' ' :: (name ++ t)) = some b
  have hsw : startsWith (S "## " ++ name) ('#' :: '#' :: ' ' :: (name ++ t)) = true := by
    show startsWith name (name ++ t) = true
    exact startsWith_append name t
  have hdrop : ('#' :: '#' :: ' ' :: (name ++ t)).drop (name.length + 3) = t := by
    show (name ++ t).drop name.length = t
    exact List.drop_left name t
  simp only [adsScan, hsw, if_true, hdrop, hb]

/-- Part (a) of the corrected section-extent statement: for a Template
section whose body starts with a non-whitespace character, the captured
body of `extract_domain_sections` is only the first line — everything after
the first newline is cut off, regardless of where the next heading is. -/
theorem ads_template_truncates (c : Char) (L1 rest : LC) (hc : pyIsSpace c = false)
    (hnl : ∀ x ∈ (c :: L1), (x == '\n') = false) :
    extract_domain_section (S "Template")
        (S "## Template\n\n" ++ ((c :: L1) ++ (S "\n" ++ rest))) = pyStrip (c :: L1) := by
  have h1 := ads_after_eval c L1 rest hc hnl
  have h2 : adsScan (S "Template")
      ((S "## " ++ S "Template") ++ ('\n' :: '\n' :: ((c :: L1) ++ ('\n' :: rest)))) =
      some (c :: L1) :=
    adsScan_here (S "Template") _ _ h1
  have h3 : (S "## " ++ S "Template") ++ ('\n' :: '\n' :: ((c :: L1) ++ ('\n' :: rest))) =
      S "## Template\n\n" ++ ((c :: L1) ++ (S "\n" ++ rest)) := rfl
  rw [h3] at h2
  show (match adsScan (S "Template") (S "## Template\n\n" ++ ((c :: L1) ++ (S "\n" ++ rest))) with
        | some b => pyStrip b
        | none => ([] : LC)) = pyStrip (c :: L1)
  rw [h2]

/-- Restatement of the `tcTryK` successor equation, for rewriting at
numeric literals. -/
theorem tcTryK_succ (t : LC) (k : Nat) :
    tcTryK t (k + 1) =
      match (if startsWith (S "\n\n") (t.drop (k + 1)) then tcBody [] (t.drop (k + 3)) else none) with
      | some b => some b
      | none => tcTryK t k := rfl

/-- Restatement of the `tcTryK` base equation. -/
theorem tcTryK_zero (t : LC) :
    tcTryK t 0 =
      if startsWith (S "\n\n") t then tcBody [] (t.drop 2) else none := rfl

/-- Restatement of the `List.findSome?` cons equation. -/
theorem findSome?_cons_eq {α β : Type} (f : α → Option β) (a : α) (l : List α) :
    List.findSome? f (a :: l) =
      match f a with
      | some b => some b
      | none => List.findSome? f l := rfl

/-- The lazy `(.+?)` walk with a nonempty accumulator runs to the end of
`s` when no intermediate suffix satisfies the lookahead, and stops exactly
there when the remaining `tail` does. -/
theorem tcBody_walk (tail : LC) (hlook : tcLook tail = true) :
    ∀ (s acc : LC), acc ≠ [] →
      (∀ i, i < s.length → tcLook (s.drop i ++ tail) = false) →
      tcBody acc (s ++ tail) = some (acc.reverse ++ s) := by
  intro s
  induction s with
  | nil =>
    intro acc hacc _
    cases tail with
    | nil => exact absurd hlook (by decide)
    | cons d ds =>
      have hne : acc.isEmpty = false := by
        cases acc with
        | nil => exact absurd rfl hacc
        | cons x xs => rfl
      simp [tcBody, hne, hlook]
  | cons x s' ih =>
    intro acc hacc hnone
    show tcBody acc (x :: (s' ++ tail)) = some (acc.reverse ++ x :: s')
    have h0 : tcLook (x :: (s' ++ tail)) = false := by
      have := hnone 0 (by simp)
      simpa using this
    simp only [tcBody, h0, Bool.and_false, Bool.false_eq_true, if_false]
    rw [ih (x :: acc) (by simp)
      (fun i hi => by simpa using hnone (i + 1) (by simpa using Nat.succ_lt_succ hi))]
    simp

/-- Starting the lazy walk with an empty accumulator: the first character
is always consumed (the capture must be nonempty). -/
theorem tcBody_start (tail : LC) (hlook : tcLook tail = true) (c : Char) (s' : LC)
    (hnone : ∀ i, i < s'.length → tcLook (s'.drop i ++ tail) = false) :
    tcBody [] ((c :: s') ++ tail) = some (c :: s') := by
  show tcBody [] (c :: (s' ++ tail)) = some (c :: s')
  simp only [tcBody, List.isEmpty_nil, Bool.not_true, Bool.false_and, Bool.false_eq_true,
    if_false]
  rw [tcBody_walk tail hlook s' [c] (by simp) hnone]
  rfl

/-- After `## Template` followed by exactly one blank line and a body whose
first character is not whitespace, the Template regex captures up to the
first position where the lookahead holds. -/
theorem tcAfter_eval (c : Char) (body' tail : LC) (hc : pyIsSpace c = false)
    (hlook : tcLook tail = true)
    (hnone : ∀ i, i < body'.length → tcLook (body'.drop i ++ tail) = false) :
    tcAfterHeading ('\n' :: '\n' :: ((c :: body') ++ tail)) = some (c :: body') := by
  have hcn : ('\n' == c) = false := by
    cases hx : ('\n' == c) with
    | false => rfl
    | true =>
      rw [← beq_iff_eq.mp hx] at hc
      exact absurd hc (by decide)
  have hws : wsPrefixLen ('\n' :: '\n' :: ((c :: body') ++ tail)) = 2 := by
    show (List.takeWhile pyIsSpace ('\n' :: '\n' :: (c :: (body' ++ tail)))).length = 2
    simp [List.takeWhile_cons, show pyIsSpace '\n' = true from rfl, hc]
  show tcTryK ('\n' :: '\n' :: ((c :: body') ++ tail))
      (wsPrefixLen ('\n' :: '\n' :: ((c :: body') ++ tail))) = some (c :: body')
  rw [hws]
  rw [show (2 : Nat) = 1 + 1 from rfl, tcTryK_succ]
  have hsw2 : startsWith (S "\n\n")
      (('\n' :: '\n' :: ((c :: body') ++ tail)).drop (1 + 1)) = false := by
    show (('\n' == c) && startsWith (S "\n") (body' ++ tail)) = false
    rw [hcn, Bool.false_and]
  rw [hsw2]
  simp only [Bool.false_eq_true, if_false]
  rw [show (1 : Nat) = 0 + 1 from rfl, tcTryK_succ]
  have hsw1 : startsWith (S "\n\n")
      (('\n' :: '\n' :: ((c :: body') ++ tail)).drop (0 + 1)) = false := by
    show (('\n' == '\n') && (('\n' == c) && startsWith (S "") (body' ++ tail))) = false
    rw [hcn]
    simp
  rw [hsw1]
  simp only [Bool.false_eq_true, if_false]
  rw [tcTryK_zero]
  have hsw0 : startsWith (S "\n\n") ('\n' :: '\n' :: ((c :: body') ++ tail)) = true := rfl
  rw [hsw0]
  simp only [if_true]
  show tcBody [] ((c :: body') ++ tail) = some (c :: body')
  exact tcBody_start tail hlook c body' hnone

/-- The Template regex matches at an occurrence of its heading literal when
the continuation succeeds there. -/
theorem tcScan_here (t b : LC) (hb : tcAfterHeading t = some b) :
    tcScan ((S "## Template") ++ t) = some b := by
  show tcScan ('#' :: '#' :: ' ' :: 'T' :: 'e' :: 'm' :: 'p' :: 'l' :: 'a' :: 't' :: 'e' :: t) =
    some b
  have hsw : startsWith (S "## Template")
      ('#' :: '#' :: ' ' :: 'T' :: 'e' :: 'm' :: 'p' :: 'l' :: 'a' :: 't' :: 'e' :: t) = true := by
    show startsWith (S "") t = true
    rfl
  have hdrop : ('#' :: '#' :: ' ' :: 'T' :: 'e' :: 'm' :: 'p' :: 'l' :: 'a' :: 't' :: 'e' :: t).drop 11 = t :=
    rfl
  simp only [tcScan, hsw, if_true, hdrop, hb]

/-- Scanning past a position where the heading literal does not match. -/
theorem tcScan_skip (c : Char) (rest : LC)
    (h : startsWith (S "## Template") (c :: rest) = false) :
    tcScan (c :: rest) = tcScan rest := by
  simp [tcScan, h]

/-- Scanning for the Template heading skips the title line `# 1 - T` and
its two newlines: none of these nine positions can start `## Template`,
whatever follows. -/
theorem tcScan_title_prefix (Q : LC) : tcScan (S "# 1 - T\n\n" ++ Q) = tcScan Q := by
  have p1 : tcScan (S "# 1 - T\n\n" ++ Q) = tcScan (S " 1 - T\n\n" ++ Q) := tcScan_skip _ _ rfl
  have p2 : tcScan (S " 1 - T\n\n" ++ Q) = tcScan (S "1 - T\n\n" ++ Q) := tcScan_skip _ _ rfl
  have p3 : tcScan (S "1 - T\n\n" ++ Q) = tcScan (S " - T\n\n" ++ Q) := tcScan_skip _ _ rfl
  have p4 : tcScan (S " - T\n\n" ++ Q) = tcScan (S "- T\n\n" ++ Q) := tcScan_skip _ _ rfl
  have p5 : tcScan (S "- T\n\n" ++ Q) = tcScan (S " T\n\n" ++ Q) := tcScan_skip _ _ rfl
  have p6 : tcScan (S " T\n\n" ++ Q) = tcScan (S "T\n\n" ++ Q) := tcScan_skip _ _ rfl
  have p7 : tcScan (S "T\n\n" ++ Q) = tcScan (S "\n\n" ++ Q) := tcScan_skip _ _ rfl
  have p8 : tcScan (S "\n\n" ++ Q) = tcScan (S "\n" ++ Q) := tcScan_skip _ _ rfl
  have p9 : tcScan (S "\n" ++ Q) = tcScan Q := tcScan_skip _ _ rfl
  exact ((((((((p1.trans p2).trans p3).trans p4).trans p5).trans p6).trans p7).trans p8).trans p9)

/-- The title search on a document headed by the line `# 1 - T`. -/
theorem findTitle_c6 (X : LC) : findTitle (S "# 1 - T\n\n" ++ X) = some (S "1", S "T") := by
  have h1 : S "# 1 - T\n\n" ++ X = (S "# 1 - T") ++ ('\n' :: (S "\n" ++ X)) := rfl
  show List.findSome? parseTitleLine (splitLines (S "# 1 - T\n\n" ++ X)) = some (S "1", S "T")
  rw [h1, splitLines_append (S "# 1 - T") (S "\n" ++ X) (by decide), findSome?_cons_eq]
  rfl

/-- Part (b) of the corrected section-extent statement: the Template regex
runs the body up to the next blank-line-plus-`##` (or the end-of-text `$`
cases), provided the lookahead holds nowhere inside the body.  Note the
lookahead requires two `#` characters: a level-1 heading inside the body
does not stop it. -/
theorem tc_template_extent (c : Char) (body' : LC) (hc : pyIsSpace c = false)
    (hnone : ∀ i, i < body'.length →
      tcLook (body'.drop i ++ S "\n\n## Physical\n\nx") = false) :
    extract_template_content (some (S "# 1 - T\n\n## Template\n\n" ++
        ((c :: body') ++ S "\n\n## Physical\n\nx"))) =
      (some (S "1"), some (S "T"), some (pyStrip (c :: body'))) := by
  have hlook : tcLook (S "\n\n## Physical\n\nx") = true := rfl
  have hAfter := tcAfter_eval c body' (S "\n\n## Physical\n\nx") hc hlook hnone
  have htc : tcScan (S "# 1 - T\n\n## Template\n\n" ++
      ((c :: body') ++ S "\n\n## Physical\n\nx")) = some (c :: body') := by
    have e : S "# 1 - T\n\n## Template\n\n" ++ ((c :: body') ++ S "\n\n## Physical\n\nx") =
        S "# 1 - T\n\n" ++ ((S "## Template") ++
          ('\n' :: '\n' :: ((c :: body') ++ S "\n\n## Physical\n\nx"))) := rfl
    rw [e, tcScan_title_prefix]
    exact tcScan_here _ _ hAfter
  have hft : findTitle (S "# 1 - T\n\n## Template\n\n" ++
      ((c :: body') ++ S "\n\n## Physical\n\nx")) = some (S "1", S "T") := by
    have e : S "# 1 - T\n\n## Template\n\n" ++ ((c :: body') ++ S "\n\n## Physical\n\nx") =
        S "# 1 - T\n\n" ++ (S "## Template\n\n" ++ ((c :: body') ++ S "\n\n## Physical\n\nx")) :=
      rfl
    rw [e]
    exact findTitle_c6 _
  simp only [extract_template_content, hft, htc]

/-- The analyze_variations title fragment matches at a position of the
form `# <digits> - <name><newline>...`, capturing only the name. -/
theorem avMatchAt_eval (ds nm rest2 : LC) (hds : ds ≠ [])
    (hdig : ∀ c ∈ ds, Char.isDigit c = true) (hnm : nm ≠ [])
    (hnl : ∀ c ∈ nm, (c == '\n') = false) :
    avMatchAt ('#' :: ' ' :: (ds ++ (S " - " ++ (nm ++ ('\n' :: rest2))))) = some nm := by
  have htw : (ds ++ (S " - " ++ (nm ++ ('\n' :: rest2)))).takeWhile Char.isDigit = ds := by
    refine takeWhile_append_eq _ _ _ hdig (fun c hc => ?_)
    have h2 : (some ' ' : Option Char) = some c := hc
    injection h2 with h3
    rw [← h3]
    rfl
  have hdsE : ds.isEmpty = false := by
    cases ds with
    | nil => exact absurd rfl hds
    | cons a as => rfl
  have hnmE : nm.isEmpty = false := by
    cases nm with
    | nil => exact absurd rfl hnm
    | cons a as => rfl
  have hdrop : (ds ++ (S " - " ++ (nm ++ ('\n' :: rest2)))).drop ds.length =
      S " - " ++ (nm ++ ('\n' :: rest2)) := List.drop_left ds _
  have hsw : startsWith (S " - ") (S " - " ++ (nm ++ ('\n' :: rest2))) = true :=
    startsWith_append _ _
  have hdrop3 : (S " - " ++ (nm ++ ('\n' :: rest2))).drop 3 = nm ++ ('\n' :: rest2) := rfl
  have htw2 : (nm ++ ('\n' :: rest2)).takeWhile (fun c => !(c == '\n')) = nm := by
    refine takeWhile_append_eq _ _ _ (fun c hc => ?_) (fun c hc => ?_)
    · rw [hnl c hc]; rfl
    · have h2 : (some '\n' : Option Char) = some c := hc
      injection h2 with h3
      rw [← h3]
      rfl
  simp only [avMatchAt, htw, hdsE, Bool.false_eq_true, if_false, hdrop, hsw, if_true,
    hdrop3, htw2, hnmE]

/-- The leftmost-position title search succeeds at position zero of such a
document. -/
theorem avSearch_eval (ds nm rest2 : LC) (hds : ds ≠ [])
    (hdig : ∀ c ∈ ds, Char.isDigit c = true) (hnm : nm ≠ [])
    (hnl : ∀ c ∈ nm, (c == '\n') = false) :
    avSearchTitle (S "# " ++ (ds ++ (S " - " ++ (nm ++ (S "\n" ++ rest2))))) = some nm := by
  show avSearchTitle ('#' :: (' ' :: (ds ++ (S " - " ++ (nm ++ ('\n' :: rest2)))))) = some nm
  simp only [avSearchTitle]
  rw [avMatchAt_eval ds nm rest2 hds hdig hnm hnl]

/-- The generate_archetypal_patterns title line parses into the two-part
(id, name). -/
theorem parseTitleLine_eval (ds nm : LC) (hds : ds ≠ [])
    (hdig : ∀ c ∈ ds, Char.isDigit c = true) (hnm : nm ≠ []) :
    parseTitleLine ('#' :: ' ' :: (ds ++ (S " - " ++ nm))) = some (ds, nm) := by
  have htw : (ds ++ (S " - " ++ nm)).takeWhile Char.isDigit = ds := by
    refine takeWhile_append_eq _ _ _ hdig (fun c hc => ?_)
    have h2 : (some ' ' : Option Char) = some c := hc
    injection h2 with h3
    rw [← h3]
    rfl
  have hdsE : ds.isEmpty = false := by
    cases ds with
    | nil => exact absurd rfl hds
    | cons a as => rfl
  have hnmE : nm.isEmpty = false := by
    cases nm with
    | nil => exact absurd rfl hnm
    | cons a as => rfl
  have hdrop : (ds ++ (S " - " ++ nm)).drop ds.length = S " - " ++ nm := List.drop_left ds _
  have hsw : startsWith (S " - ") (S " - " ++ nm) = true := startsWith_append _ _
  have hdrop3 : (S " - " ++ nm).drop 3 = nm := rfl
  simp only [parseTitleLine, htw, hdsE, Bool.false_eq_true, if_false, hdrop, hsw, if_true,
    hdrop3, hnmE]

/-- The MULTILINE title search of `extract_template_content` finds the
two-part (id, name) on the first line of such a document. -/
theorem findTitle_eval (ds nm rest2 : LC) (hds : ds ≠ [])
    (hdig : ∀ c ∈ ds, Char.isDigit c = true) (hnm : nm ≠ [])
    (hnl : ∀ c ∈ nm, (c == '\n') = false) :
    findTitle (S "# " ++ (ds ++ (S " - " ++ (nm ++ (S "\n" ++ rest2))))) = some (ds, nm) := by
  have hline : S "# " ++ (ds ++ (S " - " ++ (nm ++ (S "\n" ++ rest2)))) =
      ('#' :: ' ' :: (ds ++ (S " - " ++ nm))) ++ ('\n' :: rest2) := by
    show '#' :: ' ' :: (ds ++ (' ' :: '-' :: ' ' :: (nm ++ ('\n' :: rest2)))) =
      ('#' :: ' ' :: (ds ++ (' ' :: '-' :: ' ' :: nm))) ++ ('\n' :: rest2)
    simp [List.append_assoc]
  have hl' : ∀ c ∈ ('#' :: ' ' :: (ds ++ (S " - " ++ nm))), (c == '\n') = false := by
    intro c hcmem
    simp only [List.mem_cons, List.mem_append] at hcmem
    rcases hcmem with h | h | h | h
    · rw [h]; rfl
    · rw [h]; rfl
    · have hd := hdig c h
      cases hx : (c == '\n') with
      | false => rfl
      | true =>
        rw [beq_iff_eq.mp hx] at hd
        exact absurd hd (by decide)
    · rcases h with h | h
      · have h2 : c ∈ (' ' :: '-' :: ' ' :: []) := h
        have : c = ' ' ∨ c = '-' ∨ c = ' ' := by simpa using h2
        rcases this with h2 | h2 | h2 <;> rw [h2] <;> rfl
      · exact hnl c h
  show List.findSome? parseTitleLine
      (splitLines (S "# " ++ (ds ++ (S " - " ++ (nm ++ (S "\n" ++ rest2)))))) = some (ds, nm)
  rw [hline, splitLines_append _ _ hl', findSome?_cons_eq,
    parseTitleLine_eval ds nm hds hdig hnm]

/-! ## Claim theorems -/

/-- C1: the claim states that re-applying the Substitution Engine to its own
output returns that text unchanged and fires zero placeholders, placeholder
tokens never being matched by any rule.  The code violates this: the word
`domains` inside the emitted token is matched again by the rule for
`domains` (the `\b` anchors treat the brace as a word boundary), and
likewise `regions` inside the APL engine's token, so the second application
changes the text and fires a placeholder. -/
theorem c1_engine_not_idempotent :
    identify_domain_specific_terms (S "domains") = S "\x7b\x7bdomains\x7d\x7d" ∧
    identify_domain_specific_terms (S "\x7b\x7bdomains\x7d\x7d") =
      S "\x7b\x7b\x7b\x7bdomains\x7d\x7d\x7d\x7d" ∧
    identify_domain_specific_terms (identify_domain_specific_terms (S "domains")) ≠
      identify_domain_specific_terms (S "domains") ∧
    identify_architectural_terms (S "region") = S "\x7b\x7bregions\x7d\x7d" ∧
    identify_architectural_terms (identify_architectural_terms (S "region")) =
      S "\x7b\x7b\x7b\x7bregions\x7d\x7d\x7d\x7d" :=
  ⟨rfl, rfl, by decide, rfl, rfl⟩

/-- C2: the claim states that on "the building process began", with the
multi-word rule for "building process" and the single-word rule for
"building" both present, the output contains `(creation) began` and never
`(structures) process began`.  The code produces exactly the forbidden
output: the single-word `building` rule is applied in an earlier full pass
(dict order) than the rule carrying the `building process` alternative, so
the multi-word alternative can never fire. -/
theorem c2_multiword_precedence_fails :
    identify_architectural_terms (S "the building process began") =
      S "the \x7b\x7bstructures\x7d\x7d process began" ∧
    (S "\x7b\x7bstructures\x7d\x7d process began" <:+:
      identify_architectural_terms (S "the building process began")) ∧
    ¬ (S "\x7b\x7bcreation\x7d\x7d" <:+:
      identify_architectural_terms (S "the building process began")) :=
  ⟨rfl, by decide, by decide⟩

/-- C3 (counterexample): for the input template "hello" no rule fires and
the archetypal text is "hello", yet the assembled output document still
carries the `(frameworks)` mapping row — a row for a placeholder that did
not fire, refuting "no row for a placeholder that did not fire". -/
theorem c3_mapping_table_counterexample :
    identify_domain_specific_terms (S "hello") = S "hello" ∧
    (S "- `\x7b\x7bframeworks\x7d\x7d`" <:+:
      generate_archetypal_pattern (S "1") (S "Test") (S "hello")) ∧
    ¬ (S "\x7b\x7bframeworks\x7d\x7d" <:+: S "hello") := by
  refine ⟨rfl, ?_, by decide⟩
  have h1 : S "- `\x7b\x7bframeworks\x7d\x7d`" <:+: gapRowFrameworks := by decide
  have h2 : gapRowFrameworks <:+: domainPlaceholdersBlock :=
    ⟨S "## Domain Placeholders\n\nThis archetypal pattern uses the following domain-specific placeholders:\n\n" ++
        gapRowDomains,
     gapRowElements ++ gapRowOrganizationType ++ gapRowResources ++ gapRowInfluenceType ++
        gapRowAreas ++ gapRowPositions ++ gapRowPatterns ++ gapRowModes,
     by simp [domainPlaceholdersBlock, List.append_assoc]⟩
  exact infixTrans h1 (infixTrans h2 (block_infix_gap (S "1") (S "Test") (S "hello")))

/-- C3 (amended): the mapping table embedded in an output document is the
full fixed ten-row block, emitted unconditionally for every input — it is
not restricted to the placeholders that fired, and the engine returns only
the substituted text, recording no fired-placeholder list. -/
theorem c3_mapping_table_always_full (pid nm tmpl title content : LC) :
    (domainPlaceholdersBlock <:+: generate_archetypal_pattern pid nm tmpl) ∧
    (domainTransformationsBlock <:+: generate_archetypal_variant title content) :=
  ⟨block_infix_gap pid nm tmpl, block_infix_gav title content⟩

/-- C4: a document whose title parses but that lacks a Template section.
The claim says it is counted in the skipped-for-missing-section tally.  In
the code, `extract_template_content` collapses this case to the all-`None`
triple, so `main`'s `elif pattern_id and pattern_name` branch — the one that
increments `no_template_count` and prints the skip message — is not reached:
the document is passed over silently and the final summary reports zero
skips.  Subsequent documents are still processed (the good document is
generated), which is the only part of the claim the code satisfies. -/
theorem c4_missing_template_not_tallied :
    findTitle (S "# 7 - Foo\n\nNo template here.") = some (S "7", S "Foo") ∧
    tcScan (S "# 7 - Foo\n\nNo template here.") = none ∧
    processDoc (some (S "# 7 - Foo\n\nNo template here.")) = DocOutcome.dropped ∧
    runMain [some (S "# 7 - Foo\n\nNo template here."),
             some (S "# 8 - Bar\n\n## Template\n\nBody text.\n\n## Physical\n\nstuff")] = (1, 0) :=
  ⟨rfl, rfl, rfl, rfl⟩

/-- C5: word-boundary correctness.  A surface form occurring only inside a
longer word is never matched: for any rule set and any single word `w` (a
nonempty run of word characters) none of whose rules has an alternative
equal to the lowercased whole word, the engine leaves `w` unchanged.
Inside a word, a match could only start at the first character (elsewhere
the leading `\b` fails) and would have to extend to the last character
(otherwise the trailing `\b` fails), i.e. be the whole word — excluded by
hypothesis.  In particular the rule alternative `region` never touches the
word `regional`. -/
theorem c5_word_boundary_correct (rs : List Rule) (w : LC)
    (hw : ∀ c ∈ w, isWordChar c = true)
    (halts : ∀ r ∈ rs, ∀ alt ∈ r.alts, alt ≠ w.map Char.toLower) :
    applyRules rs w = w := by
  revert halts
  induction rs with
  | nil => intro _; rfl
  | cons r rs ih =>
    intro halts
    show List.foldl (fun t r => ruleSub r t) w (r :: rs) = w
    rw [List.foldl_cons, ruleSub_word_id r w hw (halts r (by simp))]
    exact ih (fun r' hr' => halts r' (by simp [hr']))

theorem c5_word_boundary_correct_witness :
    (∀ c ∈ S "regional", isWordChar c = true) ∧
    (∀ r ∈ architectural_terms, ∀ alt ∈ r.alts, alt ≠ (S "regional").map Char.toLower) ∧
    applyRules architectural_terms (S "regional") = S "regional" :=
  ⟨by decide, by decide,
   c5_word_boundary_correct architectural_terms (S "regional") (by decide) (by decide)⟩

/-- C6 (counterexample): the claim says a section body spans from the line
after the heading up to the next heading of equal or higher level, so that
"line1\nline2" would be captured below.  The code captures only "line1":
with MULTILINE, the `$` alternative of the lookahead matches before every
newline, so the body stops at the first line break.  And in
`extract_template_content` a level-1 heading does not terminate the body:
the lookahead needs `\n\n##`, so the captured body runs across `# Level
One` up to the next level-2 heading. -/
theorem c6_section_extent_counterexample :
    extract_domain_section (S "Template")
        (S "## Template\n\nline1\nline2\n\n## Physical\n\np") = S "line1" ∧
    S "line1" ≠ S "line1\nline2" ∧
    extract_template_content
        (some (S "# 1 - T\n\n## Template\n\nintro\n\n# Level One\n\nmore\n\n## Physical\n\nx")) =
      (some (S "1"), some (S "T"), some (S "intro\n\n# Level One\n\nmore")) :=
  ⟨rfl, by decide, rfl⟩

/-- C6 (amended): in `extract_domain_sections` a recognized section's body
is only the first line after the heading's blank line (the MULTILINE
end-of-line anchor stops the lazy capture at the first newline), not the
text up to the next heading; in `extract_template_content` the body runs to
the next blank line followed by `##` (level-2 or deeper) or to the
end-of-text cases of `$`, so an intervening level-1 heading does not
terminate it; in both, the captured body is whitespace-stripped. -/
theorem c6_section_extent_amended :
    (∀ (c : Char) (L1 rest : LC), pyIsSpace c = false →
      (∀ x ∈ (c :: L1), (x == '\n') = false) →
      extract_domain_section (S "Template")
          (S "## Template\n\n" ++ ((c :: L1) ++ (S "\n" ++ rest))) = pyStrip (c :: L1)) ∧
    (∀ (c : Char) (body' : LC), pyIsSpace c = false →
      (∀ i, i < body'.length → tcLook (body'.drop i ++ S "\n\n## Physical\n\nx") = false) →
      extract_template_content (some (S "# 1 - T\n\n## Template\n\n" ++
          ((c :: body') ++ S "\n\n## Physical\n\nx"))) =
        (some (S "1"), some (S "T"), some (pyStrip (c :: body')))) :=
  ⟨fun c L1 rest hc hnl => ads_template_truncates c L1 rest hc hnl,
   fun c body' hc hnone => tc_template_extent c body' hc hnone⟩

theorem c6_section_extent_amended_witness :
    (pyIsSpace 'l' = false ∧ (∀ x ∈ ('l' :: S "ine1"), (x == '\n') = false) ∧
      extract_domain_section (S "Template")
          (S "## Template\n\n" ++ (('l' :: S "ine1") ++ (S "\n" ++ S "line2\n\n## Physical\n\np"))) =
        pyStrip ('l' :: S "ine1")) ∧
    (pyIsSpace 'i' = false ∧
      (∀ i, i < (S "ntro\n\n# Level One\n\nmore").length →
        tcLook ((S "ntro\n\n# Level One\n\nmore").drop i ++ S "\n\n## Physical\n\nx") = false) ∧
      extract_template_content (some (S "# 1 - T\n\n## Template\n\n" ++
          (('i' :: S "ntro\n\n# Level One\n\nmore") ++ S "\n\n## Physical\n\nx"))) =
        (some (S "1"), some (S "T"), some (pyStrip ('i' :: S "ntro\n\n# Level One\n\nmore")))) :=
  ⟨⟨by decide, by decide,
    c6_section_extent_amended.1 'l' (S "ine1") (S "line2\n\n## Physical\n\np")
      (by decide) (by decide)⟩,
   ⟨by decide, by decide,
    c6_section_extent_amended.2 'i' (S "ntro\n\n# Level One\n\nmore") (by decide) (by decide)⟩⟩

/-- C9: determinism of the engine.  The embedded engine is a pure function
of the rule list and the text — the source keeps no mutable state between
runs and its rule dictionaries are function-local literals in fixed
insertion order — so two runs on equal inputs give equal outputs. -/
theorem c9_engine_deterministic (rs : List Rule) (t1 t2 : LC) (h : t1 = t2) :
    applyRules rs t1 = applyRules rs t2 ∧
    identify_domain_specific_terms t1 = identify_domain_specific_terms t2 ∧
    identify_architectural_terms t1 = identify_architectural_terms t2 := by
  subst h; exact ⟨rfl, rfl, rfl⟩

theorem c9_engine_deterministic_witness :
    (S "the town" : LC) = S "the town" ∧
    applyRules architectural_terms (S "the town") = applyRules architectural_terms (S "the town") :=
  ⟨rfl, (c9_engine_deterministic architectural_terms (S "the town") (S "the town") rfl).1⟩

/-- C10: `extract_template_content` is total in the embedding (the source's
`try/except` is the `none` input branch) and returns either three values or
the all-`None` triple; a document with a parsing title but no Template
section is mapped to the same `(none, none, none)` as a document with no
title, so the two cases are indistinguishable to the caller. -/
theorem c10_extract_total_shape :
    (∀ file : Option LC,
      extract_template_content file = (none, none, none) ∨
      ∃ a b c, extract_template_content file = (some a, some b, some c)) ∧
    findTitle (S "# 5 - Name\n\nProse only.") = some (S "5", S "Name") ∧
    extract_template_content (some (S "# 5 - Name\n\nProse only.")) = (none, none, none) ∧
    findTitle (S "## Template\n\nBody.\n\nEnd") = none ∧
    extract_template_content (some (S "## Template\n\nBody.\n\nEnd")) = (none, none, none) := by
  refine ⟨?_, rfl, rfl, rfl, rfl⟩
  intro file
  cases file with
  | none => exact Or.inl rfl
  | some content =>
    cases hT : findTitle content with
    | none => exact Or.inl (by simp [extract_template_content, hT])
    | some p =>
      obtain ⟨pid, nm⟩ := p
      cases hS : tcScan content with
      | none => exact Or.inl (by simp [extract_template_content, hT, hS])
      | some body =>
        exact Or.inr ⟨pid, nm, pyStrip body, by simp [extract_template_content, hT, hS]⟩

/-- C7 (counterexample): the claim says a document with no title line gets
a fallback Title from the file identifier and is not aborted.  In
generate_archetypal_patterns.py there is no fallback: a document with a
perfectly good Template section but no title line yields the all-`None`
triple and is dropped.  And in analyze_variations.py, where the fallback
does exist, the Title is not the claimed two-part (id, name): only the name
is captured — for `# 12 - Foo` the title is "Foo", with the id discarded. -/
theorem c7_title_counterexample :
    tcScan (S "## Template\n\nBody.\n\n## Physical\n\nx") = some (S "Body.") ∧
    extract_template_content (some (S "## Template\n\nBody.\n\n## Physical\n\nx")) =
      (none, none, none) ∧
    analyzeTitle (S "file.md") (S "# 12 - Foo\nbody") = S "Foo" ∧
    S "Foo" ≠ S "12 - Foo" :=
  ⟨rfl, rfl, rfl, by decide⟩

/-- C7 (amended): in generate_archetypal_patterns.py the Title is the
two-part (id, name) from the first whole line `# <digits> - <name>`, and a
document lacking such a line is skipped with no output — there is no
fallback; in analyze_variations.py the Title is only the name part of the
first `# <digits> - <name>` fragment found anywhere in the text, falling
back to the file name when none is found, without aborting. -/
theorem c7_title_amended :
    (∀ fn content : LC, avSearchTitle content = none → analyzeTitle fn content = fn) ∧
    (∀ (fn ds nm rest2 : LC), ds ≠ [] → (∀ c ∈ ds, Char.isDigit c = true) → nm ≠ [] →
      (∀ c ∈ nm, (c == '\n') = false) →
      analyzeTitle fn (S "# " ++ (ds ++ (S " - " ++ (nm ++ (S "\n" ++ rest2))))) = nm) ∧
    (∀ (ds nm rest2 : LC), ds ≠ [] → (∀ c ∈ ds, Char.isDigit c = true) → nm ≠ [] →
      (∀ c ∈ nm, (c == '\n') = false) →
      findTitle (S "# " ++ (ds ++ (S " - " ++ (nm ++ (S "\n" ++ rest2))))) = some (ds, nm)) ∧
    (∀ content : LC, findTitle content = none →
      extract_template_content (some content) = (none, none, none)) := by
  refine ⟨?_, ?_, ?_, ?_⟩
  · intro fn content h
    simp [analyzeTitle, h]
  · intro fn ds nm rest2 hds hdig hnm hnl
    simp [analyzeTitle, avSearch_eval ds nm rest2 hds hdig hnm hnl]
  · intro ds nm rest2 hds hdig hnm hnl
    exact findTitle_eval ds nm rest2 hds hdig hnm hnl
  · intro content h
    simp [extract_template_content, h]

theorem c7_title_amended_witness :
    (avSearchTitle (S "no title here") = none ∧
      analyzeTitle (S "f.md") (S "no title here") = S "f.md") ∧
    ((S "12" : LC) ≠ [] ∧ (∀ c ∈ S "12", Char.isDigit c = true) ∧ (S "Foo" : LC) ≠ [] ∧
      (∀ c ∈ S "Foo", (c == '\n') = false) ∧
      analyzeTitle (S "f.md") (S "# " ++ (S "12" ++ (S " - " ++ (S "Foo" ++ (S "\n" ++ S "body"))))) =
        S "Foo" ∧
      findTitle (S "# " ++ (S "12" ++ (S " - " ++ (S "Foo" ++ (S "\n" ++ S "body"))))) =
        some (S "12", S "Foo")) ∧
    (findTitle (S "no title here") = none ∧
      extract_template_content (some (S "no title here")) = (none, none, none)) :=
  ⟨⟨by decide, c7_title_amended.1 (S "f.md") (S "no title here") (by decide)⟩,
   ⟨by decide, by decide, by decide, by decide,
    c7_title_amended.2.1 (S "f.md") (S "12") (S "Foo") (S "body")
      (by decide) (by decide) (by decide) (by decide),
    c7_title_amended.2.2.1 (S "12") (S "Foo") (S "body")
      (by decide) (by decide) (by decide) (by decide)⟩,
   ⟨by decide, c7_title_amended.2.2.2 (S "no title here") (by decide)⟩⟩

/-- C8 (counterexample): in generate_apl_archetypal_variants.py a missing
source file is not skipped: the loop synthesizes placeholder content and
writes a full archetypal variant for it, refuting "no substitute content is
produced or written for it". -/
theorem c8_missing_file_counterexample :
    aplProcessDoc (S "Doc") none =
      generate_archetypal_variant (S "Doc") (aplPlaceholderContent (S "Doc")) ∧
    (S "This document represents doc organizational principles." <:+:
      aplProcessDoc (S "Doc") none) := by
  refine ⟨rfl, ?_⟩
  have h1 : S "This document represents doc organizational principles." <:+:
      aplPlaceholderContent (S "Doc") := by decide
  have h2 := content_infix_gav (S "Doc") (aplPlaceholderContent (S "Doc"))
  exact infixTrans h1 h2

/-- C8 (amended): in generate_archetypal_patterns.py an unreadable input is
caught, logged and the document skipped with nothing produced; but in
generate_apl_archetypal_variants.py a missing source file is not skipped —
placeholder content is synthesized and an archetypal variant document is
generated and written in its place. -/
theorem c8_io_error_amended (title : LC) :
    extract_template_content none = (none, none, none) ∧
    processDoc none = DocOutcome.dropped ∧
    aplProcessDoc title none = generate_archetypal_variant title (aplPlaceholderContent title) ∧
    (S "This document represents " <:+: aplProcessDoc title none) := by
  refine ⟨rfl, rfl, rfl, ?_⟩
  have h1 : S "This document represents " <:+: aplPlaceholderContent title :=
    ⟨S "# " ++ title ++ S "\n\n", pyLower title ++ S " organizational principles.",
     by simp [aplPlaceholderContent, List.append_assoc]⟩
  exact infixTrans h1 (content_infix_gav title (aplPlaceholderContent title))

end P235
